import Mathlib

/-!
Verification of the TypeView type-resolution engine.

Shallow embedding of the engine's source files:
- `src/utils/ast-utils/collectImportStatements.ts` (import index builder)
- `src/parser/function-searcher.ts` (`findFunction`, `searchFunctionBodyType`,
  `findFunctionBodyType`)
- `src/utils/ast-utils/pattern_matchers/AwaitReqJsonMatcher.ts`,
  `TypeAssertionMatcher.ts`, `ZodParseMatcher.ts` (body-pattern matchers)
- `src/utils/ast-utils/type_extractors/InterfaceTypeExtractor.ts`,
  `VariableDeclarationExtractor.ts` and `src/parser/local-type-searcher.ts`
  (local definition extractors)
- `src/parser/ts-parser.ts` (`findBodyType`, the resolution orchestrator)

The TypeScript AST is modelled by the inductive types below; `getText`
renders an expression's source text the way `node.getText(sourceFile)`
returns the corresponding source substring.  Statement lists are a mutual
inductive (`Stmt` / `Stmts`) so that all tree traversals are structural
recursions that evaluate by `rfl` / `decide`.
-/

namespace TypeView

/-- A TypeScript type node, as inspected by the matchers.  `ref` is a
`TypeReferenceNode` carrying the source text of its `typeName` (a bare or
qualified identifier; generic instantiations also have this node kind and
carry only the head name, which is all the source ever reads).
`otherType` covers every other kind of type node (inline object types,
unions, ...), carrying its source text. -/
inductive TypeNode where
  | ref (tname : String) : TypeNode
  | otherType (ttext : String) : TypeNode
deriving DecidableEq

/-- Source text of a type node, used only for rendering enclosing
expressions. -/
def TypeNode.render : TypeNode → String
  | .ref tname => tname
  | .otherType ttext => ttext

/-- A TypeScript expression, restricted to the node kinds the engine
inspects.  Call arguments are kept as rendered source text because no code
path of the engine ever looks inside them. -/
inductive Expr where
  | ident (iname : String) : Expr
  | propAccess (obj : Expr) (pname : String) : Expr
  | call (callee : Expr) (argsText : String) : Expr
  | awaitE (e : Expr) : Expr
  | asE (e : Expr) (t : TypeNode) : Expr
  | paren (e : Expr) : Expr
  | otherExpr (etext : String) : Expr
deriving DecidableEq

/-- `node.getText(sourceFile)`: the source text of an expression. -/
def Expr.getText : Expr → String
  | .ident iname => iname
  | .propAccess obj pname => obj.getText ++ "." ++ pname
  | .call callee argsText => callee.getText ++ "(" ++ argsText ++ ")"
  | .awaitE e => "await " ++ e.getText
  | .asE e t => e.getText ++ " as " ++ t.render
  | .paren e => "(" ++ e.getText ++ ")"
  | .otherExpr etext => etext

/-- Model of JS `String.prototype.endsWith`, by character list (the
built-in `String.endsWith` does not reduce in the kernel). -/
def strEndsWith (s suffix : String) : Bool :=
  s.toList.drop (s.toList.length - suffix.toList.length) == suffix.toList

/-- Whitespace characters trimmed by `String.prototype.trim` as it occurs
in this code base (spaces, tabs and line terminators of the trivia the
TypeScript scanner produces). -/
def isWsChar (c : Char) : Bool := c == ' ' || c == '\t' || c == '\n' || c == '\r'

/-- Model of JS `String.prototype.trim`, by character list. -/
def strTrim (s : String) : String :=
  (((s.toList.dropWhile isWsChar).reverse.dropWhile isWsChar).reverse).asString

/-- The binding name of a variable declarator: either a plain identifier
(`ts.isIdentifier` holds) or a binding pattern. -/
inductive BindName where
  | ident (bn : String) : BindName
  | pattern : BindName
deriving DecidableEq

/-- One variable declarator (`ts.VariableDeclaration`): binding name,
optional type annotation, optional initializer. -/
structure VarDecl where
  bname : BindName
  type? : Option TypeNode
  init? : Option Expr
deriving DecidableEq

/-- Named bindings of an import clause: either named imports (list of the
local alias of each element, i.e. `element.name.text`) or a
namespace import. -/
inductive NamedBindings where
  | namedImports (els : List String) : NamedBindings
  | namespaceImport (nsname : String) : NamedBindings
deriving DecidableEq

/-- An import clause: optional default-import name, optional named
bindings. -/
structure ImportClause where
  name? : Option String
  namedBindings? : Option NamedBindings
deriving DecidableEq

mutual
/-- A TypeScript statement, restricted to the node kinds the engine
inspects.  `importDecl` carries the module specifier's source text (with
quotes, as `moduleSpecifier.getText` returns it).  `varStmt` carries the
statement's source text (`node.getText`), its first declarator and the
remaining declarators.  `interfaceDecl` / `typeAliasDecl` carry the
declared name and the node's full text (`getFullText`, leading trivia
included).  Function bodies are statement lists; an absent body is
`none`. -/
inductive Stmt where
  | importDecl (modText : String) (clause? : Option ImportClause) : Stmt
  | functionDecl (fname? : Option String) (body? : Option Stmts) : Stmt
  | varStmt (stext : String) (d0 : VarDecl) (drest : List VarDecl) : Stmt
  | interfaceDecl (iname : String) (fullText : String) : Stmt
  | typeAliasDecl (aname : String) (fullText : String) : Stmt
  | otherStmt : Stmt
/-- A list of statements (mutual with `Stmt` so traversals are structural
recursions). -/
inductive Stmts where
  | nil : Stmts
  | cons (s : Stmt) (rest : Stmts) : Stmts
end

/-- Concatenation of statement lists. -/
def Stmts.append : Stmts → Stmts → Stmts
  | .nil, l => l
  | .cons s r, l => .cons s (r.append l)

/-- The import index: a JS `Map<string, string>` from local name to module
path, as an insertion-ordered association list with unique keys. -/
abbrev ImportMap := List (String × String)

/-- The empty import map. -/
def mapEmpty : ImportMap := []

/-- `Map.prototype.set`: overwrite the value in place if the key exists
(keeping its insertion position), otherwise append the new entry. -/
def mapSet : ImportMap → String → String → ImportMap
  | [], k, v => [(k, v)]
  | p :: t, k, v => if p.1 == k then (k, v) :: t else p :: mapSet t k v

/-- `Map.prototype.get` (`undefined` is `none`). -/
def mapGet : ImportMap → String → Option String
  | [], _ => none
  | p :: t, k => if p.1 == k then some p.2 else mapGet t k

/-- `moduleSpecifier.getText(sourceFile).replace(/['"]/g, "")`: drop every
single and double quote character. -/
def stripQuotes (s : String) : String :=
  (s.toList.filter (fun c => !(c == '\"' || c == Char.ofNat 39))).asString

/-- The error thrown by `collectImportStatements`: an import declaration
with no clause, or one whose clause has neither named imports nor a
default name. -/
inductive ImportClauseError where
  | noClause (path : String) : ImportClauseError
  | unsupportedClause (path : String) : ImportClauseError
deriving DecidableEq

/-- The `Error.message` built at each `throw` site of
`collectImportStatements.ts`. -/
def ImportClauseError.message : ImportClauseError → String
  | .noClause path =>
      "Import statement without import clause found: \"" ++
        (path ++ "\". Please separate types into dedicated files with proper named imports.")
  | .unsupportedClause path =>
      "Import statement with unsupported import clause found: \"" ++
        (path ++ "\". Please use named imports (import \x7b Type \x7d from \"...\") or default imports (import Type from \"...\").")

/-- `collectImportStatements(node, sourceFile, importMap)` from
`collectImportStatements.ts`: non-imports are no-ops; a missing clause
throws; named imports bind each element's local alias; otherwise a default
name binds it; otherwise throws.  The returned map is the updated
`importMap` (mutation made explicit). -/
def collectImportStatements (s : Stmt) (importMap : ImportMap) :
    Except ImportClauseError ImportMap :=
  match s with
  | .importDecl modText clause? =>
    let importPath := stripQuotes modText
    match clause? with
    | none => .error (.noClause importPath)
    | some cl =>
      match cl.namedBindings? with
      | some (.namedImports els) =>
          .ok (els.foldl (fun m n => mapSet m n importPath) importMap)
      | _ =>
        match cl.name? with
        | some d => .ok (mapSet importMap d importPath)
        | none => .error (.unsupportedClause importPath)
  | _ => .ok importMap

mutual
/-- The `visit` recursion of `findBodyType` (ts-parser.ts): apply
`collectImportStatements` to a node, then recurse into its children (a
thrown error aborts the whole traversal). -/
def collectNode (m : ImportMap) (s : Stmt) : Except ImportClauseError ImportMap :=
  match s with
  | .functionDecl fname? (some body) =>
    (match collectImportStatements (.functionDecl fname? (some body)) m with
     | .error e => .error e
     | .ok m1 => collectStmts m1 body)
  | s1 =>
    (match collectImportStatements s1 m with
     | .error e => .error e
     | .ok m1 => .ok m1)
/-- `collectNode` folded over a statement list in document order. -/
def collectStmts (m : ImportMap) : Stmts → Except ImportClauseError ImportMap
  | .nil => .ok m
  | .cons s rest =>
    match collectNode m s with
    | .error e => .error e
    | .ok m1 => collectStmts m1 rest
end

/-- A body-pattern matcher (`BodyPatternMatcher.ts`): a name and the two
capabilities `matches` / `extractTypeName` over a variable declarator. -/
structure BodyPatternMatcher where
  pmname : String
  matchesDecl : VarDecl → Bool
  extractTypeName : VarDecl → Option String

/-- `AwaitReqJsonMatcher`: initializer is an await whose awaited
expression's text ends with `.json()`; extracts the annotation's type name
when the annotation is a type-reference node. -/
def awaitReqJsonMatcher : BodyPatternMatcher where
  pmname := "await-req-json"
  matchesDecl d :=
    match d.init? with
    | some (.awaitE e) => strEndsWith (Expr.getText e) ".json()"
    | _ => false
  extractTypeName d :=
    match d.type? with
    | some (.ref tname) => some tname
    | _ => none

/-- `TypeAssertionMatcher.isAwaitReqJsonExpression`: unwrap parenthesized
expressions, then require an await whose awaited expression's text ends
with `.json()`. -/
def isAwaitReqJsonExpression : Expr → Bool
  | .paren e => isAwaitReqJsonExpression e
  | .awaitE e => strEndsWith (Expr.getText e) ".json()"
  | _ => false

/-- `TypeAssertionMatcher`: initializer is an `as`-expression over an
await-req-json expression; extracts the asserted type's name when it is a
type-reference node. -/
def typeAssertionMatcher : BodyPatternMatcher where
  pmname := "type-assertion"
  matchesDecl d :=
    match d.init? with
    | some (.asE e _) => isAwaitReqJsonExpression e
    | _ => false
  extractTypeName d :=
    match d.init? with
    | some (.asE _ (.ref tname)) => some tname
    | _ => none

/-- `ZodParseMatcher`: initializer is a call whose callee is a property
access named `parse`; extracts the source text of the callee's object
(the schema identifier). -/
def zodParseMatcher : BodyPatternMatcher where
  pmname := "zod-parse"
  matchesDecl d :=
    match d.init? with
    | some (.call (.propAccess _ pname) _) => pname == "parse"
    | _ => false
  extractTypeName d :=
    match d.init? with
    | some (.call (.propAccess obj _) _) => some (Expr.getText obj)
    | _ => none

/-- The matcher list of `findBodyType` (ts-parser.ts), in its fixed
order. -/
def defaultPatternMatchers : List BodyPatternMatcher :=
  [awaitReqJsonMatcher, typeAssertionMatcher, zodParseMatcher]

/-- Net effect on `bodyTypeName` of the matcher loop of
`searchFunctionBodyType` for one variable statement: `noMatch` when no
matcher matched (no assignment), `assigned v` when the loop's last
assignment wrote `v` (`v = some _` stops the loop; every matching matcher
writes its extraction result even when that result is empty). -/
inductive StepResult where
  | noMatch : StepResult
  | assigned (v : Option String) : StepResult
deriving DecidableEq

/-- The matcher loop of `searchFunctionBodyType` on the first declarator
of a variable statement. -/
def runMatchers (ms : List BodyPatternMatcher) (d : VarDecl) : StepResult :=
  match ms with
  | [] => .noMatch
  | m :: rest =>
    if m.matchesDecl d then
      match m.extractTypeName d with
      | some v => .assigned (some v)
      | none =>
        match runMatchers rest d with
        | .noMatch => .assigned none
        | r => r
    else runMatchers rest d

mutual
/-- `visitFunctionBody` of `searchFunctionBodyType` at one node, threading
the mutable `bodyTypeName` (`st`).  At a variable statement the matcher
loop runs on `declarations[0]`; any assignment (even to `undefined`)
replaces the current value, and `ts.forEachChild` then continues with the
following nodes because the visitor's `return` does not stop sibling
iteration. -/
def sbNode (ms : List BodyPatternMatcher) (st : Option String) (s : Stmt) :
    Option String :=
  match s with
  | .varStmt _ d0 _ =>
    match runMatchers ms d0 with
    | .noMatch => st
    | .assigned v => v
  | .functionDecl _ (some body) => sbStmts ms st body
  | _ => st
/-- `visitFunctionBody` folded over a statement list in document order. -/
def sbStmts (ms : List BodyPatternMatcher) (st : Option String) : Stmts → Option String
  | .nil => st
  | .cons s rest => sbStmts ms (sbNode ms st s) rest
end

/-- `searchFunctionBodyType(functionNode, patternMatchers, sourceFile)`
from function-searcher.ts: `undefined` when the function has no body,
otherwise the final value of `bodyTypeName` after the traversal. -/
def searchFunctionBodyType (ms : List BodyPatternMatcher) (fn : Stmt) :
    Option String :=
  match fn with
  | .functionDecl _ (some body) => sbStmts ms none body
  | _ => none

mutual
/-- The `visit` recursion of `findFunction` at one node, threading the
mutable `foundFunction` (`acc`): a function declaration whose name equals
the target overwrites `acc` and is not descended into; every other node is
descended into, and sibling iteration always continues. -/
def ffNode (target : String) (acc : Option Stmt) (s : Stmt) : Option Stmt :=
  match s with
  | .functionDecl fname? body? =>
    if fname? = some target then some (.functionDecl fname? body?)
    else
      match body? with
      | some body => ffStmts target acc body
      | none => acc
  | _ => acc
/-- `findFunction`'s visitor folded over a statement list in document
order. -/
def ffStmts (target : String) (acc : Option Stmt) : Stmts → Option Stmt
  | .nil => acc
  | .cons s rest => ffStmts target (ffNode target acc s) rest
end

/-- `findFunction(sourceFile, functionName)` from function-searcher.ts. -/
def findFunction (file : Stmts) (functionName : String) : Option Stmt :=
  ffStmts functionName none file

/-- `findFunctionBodyType(sourceFile, methodName, patternMatchers)` from
function-searcher.ts. -/
def findFunctionBodyType (file : Stmts) (methodName : String)
    (ms : List BodyPatternMatcher) : Option String :=
  match findFunction file methodName with
  | none => none
  | some fn => searchFunctionBodyType ms fn

/-- A local definition extractor (`TypeDefinitionExtractor.ts`):
`canHandle` over a node and a requested name, `extract` rendering the
matched node (the source calls `extract` only after `canHandle`; outside
that domain the model returns `""`). -/
structure TypeDefinitionExtractor where
  canHandle : Stmt → String → Bool
  extract : Stmt → String

/-- `InterfaceTypeExtractor`: interface or type-alias declarations with
the requested name; extracts `getFullText().trim()`. -/
def interfaceTypeExtractor : TypeDefinitionExtractor where
  canHandle s typeName :=
    match s with
    | .interfaceDecl iname _ => iname == typeName
    | .typeAliasDecl aname _ => aname == typeName
    | _ => false
  extract s :=
    match s with
    | .interfaceDecl _ fullText => strTrim fullText
    | .typeAliasDecl _ fullText => strTrim fullText
    | _ => ""

/-- `VariableDeclarationExtractor`: variable statements whose first
declarator binds the requested name as a plain identifier; extracts
`getText()`. -/
def variableDeclarationExtractor : TypeDefinitionExtractor where
  canHandle s typeName :=
    match s with
    | .varStmt _ d0 _ =>
      match d0.bname with
      | .ident bn => bn == typeName
      | .pattern => false
    | _ => false
  extract s :=
    match s with
    | .varStmt stext _ _ => stext
    | _ => ""

/-- The extractor list of `findLocalTypeDefinition`
(local-type-searcher.ts), in its fixed order. -/
def localExtractors : List TypeDefinitionExtractor :=
  [interfaceTypeExtractor, variableDeclarationExtractor]

/-- The extractor loop of `findLocalTypeDefinition` at one node: first
extractor whose `canHandle` holds wins. -/
def tryExtractors (exts : List TypeDefinitionExtractor) (typeName : String)
    (s : Stmt) : Option String :=
  match exts with
  | [] => none
  | e :: rest =>
    if e.canHandle s typeName then some (e.extract s)
    else tryExtractors rest typeName s

mutual
/-- The `visit` recursion of `findLocalTypeDefinition` at one node: the
`if (definition) return` guard makes the first success in depth-first
preorder the overall result; a handled node is not descended into. -/
def fltdNode (typeName : String) (s : Stmt) : Option String :=
  match tryExtractors localExtractors typeName s with
  | some d => some d
  | none =>
    match s with
    | .functionDecl _ (some body) => fltdStmts typeName body
    | _ => none
/-- `findLocalTypeDefinition`'s visitor folded over a statement list. -/
def fltdStmts (typeName : String) : Stmts → Option String
  | .nil => none
  | .cons s rest =>
    match fltdNode typeName s with
    | some d => some d
    | none => fltdStmts typeName rest
end

/-- `findLocalTypeDefinition(sourceFile, typeName)` from
local-type-searcher.ts. -/
def findLocalTypeDefinition (file : Stmts) (typeName : String) : Option String :=
  fltdStmts typeName file

mutual
/-- The `visit` recursion of `findLocalTypeAlias` at one node: first
type-alias declaration with the requested name, `getFullText().trim()`. -/
def flaNode (typeName : String) (s : Stmt) : Option String :=
  match s with
  | .typeAliasDecl aname fullText =>
    if aname == typeName then some (strTrim fullText) else none
  | .functionDecl _ (some body) => flaStmts typeName body
  | _ => none
/-- `findLocalTypeAlias`'s visitor folded over a statement list. -/
def flaStmts (typeName : String) : Stmts → Option String
  | .nil => none
  | .cons s rest =>
    match flaNode typeName s with
    | some d => some d
    | none => flaStmts typeName rest
end

/-- `findLocalTypeAlias(sourceFile, typeName)` from
local-type-searcher.ts. -/
def findLocalTypeAlias (file : Stmts) (typeName : String) : Option String :=
  flaStmts typeName file

mutual
/-- The `visit` recursion of `findLocalInterface` at one node: first
interface declaration with the requested name, `getFullText().trim()`. -/
def fliNode (typeName : String) (s : Stmt) : Option String :=
  match s with
  | .interfaceDecl iname fullText =>
    if iname == typeName then some (strTrim fullText) else none
  | .functionDecl _ (some body) => fliStmts typeName body
  | _ => none
/-- `findLocalInterface`'s visitor folded over a statement list. -/
def fliStmts (typeName : String) : Stmts → Option String
  | .nil => none
  | .cons s rest =>
    match fliNode typeName s with
    | some d => some d
    | none => fliStmts typeName rest
end

/-- `findLocalInterface(sourceFile, typeName)` from
local-type-searcher.ts. -/
def findLocalInterface (file : Stmts) (typeName : String) : Option String :=
  fliStmts typeName file

/-- `findAnyLocalTypeDefinition(sourceFile, typeName)` from
local-type-searcher.ts: the combined extractor pass, then the type-alias
pass, then the interface pass. -/
def findAnyLocalTypeDefinition (file : Stmts) (typeName : String) :
    Option String :=
  match findLocalTypeDefinition file typeName with
  | some d => some d
  | none =>
    match findLocalTypeAlias file typeName with
    | some d => some d
    | none => findLocalInterface file typeName

/-- `ParsedTypeInfo` from ts-parser.ts: the resolved type name together
with an import path (imported case) or a local definition text (local
case). -/
structure ParsedTypeInfo where
  typeName : String
  importPath : Option String
  localDefinition : Option String
deriving DecidableEq

/-- `findBodyType(routeFileUri)` from ts-parser.ts, on the parsed file:
collect imports (a thrown `ImportClauseError` is caught by the enclosing
`try` and yields `undefined`), find the body type name of `POST`, then
resolve it first against the import map and second against the local
definitions. -/
def findBodyType (file : Stmts) : Option ParsedTypeInfo :=
  match collectStmts mapEmpty file with
  | .error _ => none
  | .ok importMap =>
    match findFunctionBodyType file "POST" defaultPatternMatchers with
    | none => none
    | some bodyTypeName =>
      match mapGet importMap bodyTypeName with
      | some importPath => some ⟨bodyTypeName, some importPath, none⟩
      | none =>
        match findAnyLocalTypeDefinition file bodyTypeName with
        | some localDefinition => some ⟨bodyTypeName, none, some localDefinition⟩
        | none => none

/-!
Specification-side derived notions used to state the claims about
the import index: the list of `(localName, modulePath)` writes an
import-declaration node performs, the statements of a tree in visit
order, and the last write for a key.
-/

/-- The `(localName, modulePath)` pairs a single statement writes into
the import map on the success paths of `collectImportStatements`, in
loop order. -/
def stmtOwnBindings : Stmt → List (String × String)
  | .importDecl modText (some cl) =>
    (match cl.namedBindings? with
     | some (.namedImports els) => els.map (fun n => (n, stripQuotes modText))
     | _ =>
       match cl.name? with
       | some d => [(d, stripQuotes modText)]
       | none => [])
  | _ => []

mutual
/-- All import-map writes performed while visiting a statement and its
children, in visit order. -/
def stmtAllBindings : Stmt → List (String × String)
  | .functionDecl _ (some body) => stmtsAllBindings body
  | s => stmtOwnBindings s
/-- All import-map writes performed while visiting a statement list, in
visit order. -/
def stmtsAllBindings : Stmts → List (String × String)
  | .nil => []
  | .cons s rest => stmtAllBindings s ++ stmtsAllBindings rest
end

mutual
/-- The statements of a tree in depth-first preorder (each node followed
by its children). -/
def stmtFlatten : Stmt → List Stmt
  | .functionDecl fname? (some body) =>
      .functionDecl fname? (some body) :: stmtsFlatten body
  | s => [s]
/-- The statements of a statement list in depth-first preorder. -/
def stmtsFlatten : Stmts → List Stmt
  | .nil => []
  | .cons s rest => stmtFlatten s ++ stmtsFlatten rest
end

/-- `s` is an import declaration whose clause binds the local name `k`:
`k` is its default-import name, or the local alias of one of its
named imports. -/
def ImportBindsName (s : Stmt) (k : String) : Prop :=
  ∃ modText cl, s = .importDecl modText (some cl) ∧
    (cl.name? = some k ∨
      ∃ els, cl.namedBindings? = some (.namedImports els) ∧ k ∈ els)

/-- The most recent value written for key `k` in a list of writes: later
entries take priority over earlier ones. -/
def lastAssoc : List (String × String) → String → Option String
  | [], _ => none
  | p :: t, k => (lastAssoc t k).or (if p.1 == k then some p.2 else none)

theorem lastAssoc_append (a b : List (String × String)) (k : String) :
    lastAssoc (a ++ b) k = (lastAssoc b k).or (lastAssoc a k) := by
  induction a with
  | nil => simp [lastAssoc]
  | cons p t ih =>
    simp only [List.cons_append, lastAssoc, List.append_eq]
    rw [ih, Option.or_assoc]

theorem lastAssoc_some_mem {l : List (String × String)} {k v : String}
    (h : lastAssoc l k = some v) : (k, v) ∈ l := by
  induction l with
  | nil => simp [lastAssoc] at h
  | cons p t ih =>
    simp only [lastAssoc] at h
    cases ht : lastAssoc t k with
    | some a =>
      rw [ht] at h
      simp only [Option.or_some] at h
      cases h
      exact List.mem_cons_of_mem p (ih ht)
    | none =>
      rw [ht] at h
      simp only [Option.none_or] at h
      cases hp : (p.1 == k) with
      | true =>
        rw [hp] at h
        simp only [if_pos rfl] at h
        cases h
        have hk : p.1 = k := by simpa using hp
        have : p = (k, p.2) := by cases p; simp_all
        rw [← hk]
        cases p
        simp_all
      | false =>
        rw [hp] at h
        simp at h

theorem mapGet_mapSet_self (m : ImportMap) (k v : String) :
    mapGet (mapSet m k v) k = some v := by
  induction m with
  | nil => simp [mapSet, mapGet]
  | cons p t ih =>
    simp only [mapSet]
    cases hp : (p.1 == k) with
    | true => simp [mapGet]
    | false => simp [mapGet, hp, ih]

theorem mapGet_mapSet_ne (m : ImportMap) (k v k' : String) (hne : k' ≠ k) :
    mapGet (mapSet m k v) k' = mapGet m k' := by
  induction m with
  | nil =>
    have hkk : (k == k') = false := by simpa using Ne.symm hne
    simp [mapSet, mapGet, hkk]
  | cons p t ih =>
    simp only [mapSet]
    cases hp : (p.1 == k) with
    | true =>
      have hp1 : p.1 = k := by simpa using hp
      have hkk : (k == k') = false := by simpa using Ne.symm hne
      simp [mapGet, hkk, hp1]
    | false =>
      cases hq : (p.1 == k') with
      | true => simp [mapGet, hq]
      | false => simp [mapGet, hq, ih]

theorem mapGet_foldl_set (path : String) (els : List String) :
    ∀ (m : ImportMap) (k : String),
      mapGet (els.foldl (fun m n => mapSet m n path) m) k
        = (lastAssoc (els.map (fun n => (n, path))) k).or (mapGet m k) := by
  induction els with
  | nil => intro m k; simp [lastAssoc]
  | cons n rest ih =>
    intro m k
    simp only [List.foldl_cons, List.map_cons]
    rw [ih]
    simp only [lastAssoc]
    cases hA : lastAssoc (rest.map fun n => (n, path)) k with
    | some a => simp [Option.or]
    | none =>
      simp only [Option.none_or]
      by_cases hk : n = k
      · subst hk
        rw [mapGet_mapSet_self]
        simp
      · rw [mapGet_mapSet_ne m n path k (Ne.symm hk)]
        simp [hk]

theorem mapGet_mapSet_eq_or (m : ImportMap) (d path k : String) :
    mapGet (mapSet m d path) k =
      (if (d == k) = true then some path else none).or (mapGet m k) := by
  by_cases hk : d = k
  · subst hk
    rw [mapGet_mapSet_self]
    simp
  · have hf : (d == k) = false := by simpa using hk
    rw [mapGet_mapSet_ne m d path k (Ne.symm hk)]
    simp [hf]

theorem collectImportStatements_get (s : Stmt) (m m' : ImportMap)
    (h : collectImportStatements s m = .ok m') (k : String) :
    mapGet m' k = (lastAssoc (stmtOwnBindings s) k).or (mapGet m k) := by
  cases s with
  | importDecl modText clause? =>
    cases clause? with
    | none => simp [collectImportStatements] at h
    | some cl =>
      cases hnb : cl.namedBindings? with
      | some nb =>
        cases nb with
        | namedImports els =>
          simp only [collectImportStatements, hnb, Except.ok.injEq] at h
          subst h
          rw [mapGet_foldl_set]
          simp [stmtOwnBindings, hnb]
        | namespaceImport ns =>
          cases hn : cl.name? with
          | some d =>
            simp only [collectImportStatements, hnb, hn, Except.ok.injEq] at h
            subst h
            simp only [stmtOwnBindings, hnb, hn, lastAssoc, Option.none_or]
            simpa using mapGet_mapSet_eq_or m d (stripQuotes modText) k
          | none => simp [collectImportStatements, hnb, hn] at h
      | none =>
        cases hn : cl.name? with
        | some d =>
          simp only [collectImportStatements, hnb, hn, Except.ok.injEq] at h
          subst h
          simp only [stmtOwnBindings, hnb, hn, lastAssoc, Option.none_or]
          simpa using mapGet_mapSet_eq_or m d (stripQuotes modText) k
        | none => simp [collectImportStatements, hnb, hn] at h
  | functionDecl fname? body? =>
    simp only [collectImportStatements, Except.ok.injEq] at h
    subst h
    simp [stmtOwnBindings, lastAssoc]
  | varStmt stext d0 drest =>
    simp only [collectImportStatements, Except.ok.injEq] at h
    subst h
    simp [stmtOwnBindings, lastAssoc]
  | interfaceDecl iname fullText =>
    simp only [collectImportStatements, Except.ok.injEq] at h
    subst h
    simp [stmtOwnBindings, lastAssoc]
  | typeAliasDecl aname fullText =>
    simp only [collectImportStatements, Except.ok.injEq] at h
    subst h
    simp [stmtOwnBindings, lastAssoc]
  | otherStmt =>
    simp only [collectImportStatements, Except.ok.injEq] at h
    subst h
    simp [stmtOwnBindings, lastAssoc]

mutual
theorem collectNode_get (s : Stmt) :
    ∀ (m m' : ImportMap), collectNode m s = .ok m' →
      ∀ k, mapGet m' k = (lastAssoc (stmtAllBindings s) k).or (mapGet m k) := by
  cases s with
  | functionDecl fname? body? =>
    intro m m' h k
    cases body? with
    | none =>
      simp only [collectNode, collectImportStatements, Except.ok.injEq] at h
      subst h
      simp [stmtAllBindings, stmtOwnBindings, lastAssoc]
    | some body =>
      simp only [collectNode, collectImportStatements] at h
      have := collectStmts_get body m m' h k
      simpa [stmtAllBindings] using this
  | importDecl modText clause? =>
    intro m m' h k
    cases hci : collectImportStatements (.importDecl modText clause?) m with
    | error e => simp [collectNode, hci] at h
    | ok m1 =>
      simp only [collectNode, hci, Except.ok.injEq] at h
      subst h
      have := collectImportStatements_get _ m m1 hci k
      simpa [stmtAllBindings] using this
  | varStmt stext d0 drest =>
    intro m m' h k
    simp only [collectNode, collectImportStatements, Except.ok.injEq] at h
    subst h
    simp [stmtAllBindings, stmtOwnBindings, lastAssoc]
  | interfaceDecl iname fullText =>
    intro m m' h k
    simp only [collectNode, collectImportStatements, Except.ok.injEq] at h
    subst h
    simp [stmtAllBindings, stmtOwnBindings, lastAssoc]
  | typeAliasDecl aname fullText =>
    intro m m' h k
    simp only [collectNode, collectImportStatements, Except.ok.injEq] at h
    subst h
    simp [stmtAllBindings, stmtOwnBindings, lastAssoc]
  | otherStmt =>
    intro m m' h k
    simp only [collectNode, collectImportStatements, Except.ok.injEq] at h
    subst h
    simp [stmtAllBindings, stmtOwnBindings, lastAssoc]
theorem collectStmts_get (l : Stmts) :
    ∀ (m m' : ImportMap), collectStmts m l = .ok m' →
      ∀ k, mapGet m' k = (lastAssoc (stmtsAllBindings l) k).or (mapGet m k) := by
  cases l with
  | nil =>
    intro m m' h k
    simp only [collectStmts, Except.ok.injEq] at h
    subst h
    simp [stmtsAllBindings, lastAssoc]
  | cons s rest =>
    intro m m' h k
    cases hc : collectNode m s with
    | error e => simp [collectStmts, hc] at h
    | ok m1 =>
      simp only [collectStmts, hc] at h
      have h1 := collectNode_get s m m1 hc k
      have h2 := collectStmts_get rest m1 m' h k
      rw [h2, h1]
      simp only [stmtsAllBindings]
      rw [lastAssoc_append, Option.or_assoc]
end

theorem stmtOwnBindings_sound {s : Stmt} {p : String × String}
    (h : p ∈ stmtOwnBindings s) : ImportBindsName s p.1 := by
  cases s with
  | importDecl modText clause? =>
    cases clause? with
    | none => simp [stmtOwnBindings] at h
    | some cl =>
      cases hnb : cl.namedBindings? with
      | some nb =>
        cases nb with
        | namedImports els =>
          simp only [stmtOwnBindings, hnb, List.mem_map] at h
          obtain ⟨n, hn, hp⟩ := h
          refine ⟨modText, cl, rfl, Or.inr ⟨els, hnb, ?_⟩⟩
          rw [← hp]
          exact hn
        | namespaceImport ns =>
          cases hn : cl.name? with
          | some d =>
            simp only [stmtOwnBindings, hnb, hn, List.mem_singleton] at h
            subst h
            exact ⟨modText, cl, rfl, Or.inl hn⟩
          | none => simp [stmtOwnBindings, hnb, hn] at h
      | none =>
        cases hn : cl.name? with
        | some d =>
          simp only [stmtOwnBindings, hnb, hn, List.mem_singleton] at h
          subst h
          exact ⟨modText, cl, rfl, Or.inl hn⟩
        | none => simp [stmtOwnBindings, hnb, hn] at h
  | functionDecl fname? body? => simp [stmtOwnBindings] at h
  | varStmt stext d0 drest => simp [stmtOwnBindings] at h
  | interfaceDecl iname fullText => simp [stmtOwnBindings] at h
  | typeAliasDecl aname fullText => simp [stmtOwnBindings] at h
  | otherStmt => simp [stmtOwnBindings] at h

mutual
theorem mem_stmtAllBindings (s : Stmt) :
    ∀ p, p ∈ stmtAllBindings s →
      ∃ u, u ∈ stmtFlatten s ∧ p ∈ stmtOwnBindings u := by
  cases s with
  | functionDecl fname? body? =>
    cases body? with
    | none =>
      intro p hp
      simp [stmtAllBindings, stmtOwnBindings] at hp
    | some body =>
      intro p hp
      simp only [stmtAllBindings] at hp
      obtain ⟨u, hu, hpu⟩ := mem_stmtsAllBindings body p hp
      exact ⟨u, by simp [stmtFlatten, hu], hpu⟩
  | importDecl modText clause? =>
    intro p hp
    simp only [stmtAllBindings] at hp
    exact ⟨_, by simp [stmtFlatten], hp⟩
  | varStmt stext d0 drest =>
    intro p hp
    simp only [stmtAllBindings] at hp
    exact ⟨_, by simp [stmtFlatten], hp⟩
  | interfaceDecl iname fullText =>
    intro p hp
    simp only [stmtAllBindings] at hp
    exact ⟨_, by simp [stmtFlatten], hp⟩
  | typeAliasDecl aname fullText =>
    intro p hp
    simp only [stmtAllBindings] at hp
    exact ⟨_, by simp [stmtFlatten], hp⟩
  | otherStmt =>
    intro p hp
    simp only [stmtAllBindings] at hp
    exact ⟨_, by simp [stmtFlatten], hp⟩
theorem mem_stmtsAllBindings (l : Stmts) :
    ∀ p, p ∈ stmtsAllBindings l →
      ∃ u, u ∈ stmtsFlatten l ∧ p ∈ stmtOwnBindings u := by
  cases l with
  | nil => intro p hp; simp [stmtsAllBindings] at hp
  | cons s rest =>
    intro p hp
    simp only [stmtsAllBindings, List.mem_append] at hp
    cases hp with
    | inl hp =>
      obtain ⟨u, hu, hpu⟩ := mem_stmtAllBindings s p hp
      exact ⟨u, by simp [stmtsFlatten, hu], hpu⟩
    | inr hp =>
      obtain ⟨u, hu, hpu⟩ := mem_stmtsAllBindings rest p hp
      exact ⟨u, by simp [stmtsFlatten, hu], hpu⟩
end

/-!
Concrete inputs used by the claim theorems: ASTs of the source snippets
named in the specification's scenarios, written out the way the
TypeScript parser parses them.
-/

/-- `await req.json()`. -/
def reqJson : Expr := .awaitE (.call (.propAccess (.ident "req") "json") "")

/-- A declarator `NAME: TY = await req.json()`. -/
def annDecl (n ty : String) : VarDecl := ⟨.ident n, some (.ref ty), some reqJson⟩

/-- `const a: A = await req.json();`. -/
def stmtA : Stmt := .varStmt "const a: A = await req.json();" (annDecl "a" "A") []

/-- `const b: B = await req.json();`. -/
def stmtB : Stmt := .varStmt "const b: B = await req.json();" (annDecl "b" "B") []

/-- `const b = await req.json() as { x: string };` — recognized by the
type-assertion matcher but with an inline object type, so its extraction
is empty. -/
def stmtEmptyExtract : Stmt :=
  .varStmt "const b = await req.json() as \x7b x: string \x7d;"
    ⟨.ident "b", none, some (.asE reqJson (.otherType "\x7b x: string \x7d"))⟩ []

/-- A `POST` function whose body is the two annotated statements `stmtA`
then `stmtB`. -/
def postFnAB : Stmt :=
  .functionDecl (some "POST") (some (.cons stmtA (.cons stmtB .nil)))

/-- A `POST` function whose body is `stmtA` then `stmtEmptyExtract`. -/
def postFnAErase : Stmt :=
  .functionDecl (some "POST") (some (.cons stmtA (.cons stmtEmptyExtract .nil)))

/-- A `POST` function whose body is only `stmtA`. -/
def postFnA : Stmt := .functionDecl (some "POST") (some (.cons stmtA .nil))

/-- A `POST` function whose body is only `stmtB`. -/
def postFnB : Stmt := .functionDecl (some "POST") (some (.cons stmtB .nil))

/-- A file with two top-level functions named `POST` (`postFnA` first,
`postFnB` second). -/
def duplicatePostFile : Stmts := .cons postFnA (.cons postFnB .nil)

/-- A file whose only top-level function is `handler`, with a `POST`
declaration nested inside its body. -/
def nestedPostFile : Stmts :=
  .cons (.functionDecl (some "handler") (some (.cons postFnA .nil))) .nil

/-- `import DefaultType, { NamedType1, NamedType2 } from "@/lib/types";`. -/
def combinedImport : Stmt :=
  .importDecl "\"@/lib/types\""
    (some ⟨some "DefaultType", some (.namedImports ["NamedType1", "NamedType2"])⟩)

/-- The import map the code builds from `combinedImport`. -/
def combinedImportMap : ImportMap :=
  [("NamedType1", "@/lib/types"), ("NamedType2", "@/lib/types")]

/-- `const Schema = z.object({ x: z.string() });`. -/
def schemaStmt : Stmt :=
  .varStmt "const Schema = z.object(\x7b x: z.string() \x7d);"
    ⟨.ident "Schema", none,
      some (.call (.propAccess (.ident "z") "object") "\x7b x: z.string() \x7d")⟩ []

/-- `function POST(){ const body = Schema.parse(await req.json()); }`. -/
def schemaPostFn : Stmt :=
  .functionDecl (some "POST")
    (some (.cons (.varStmt "const body = Schema.parse(await req.json());"
      ⟨.ident "body", none,
        some (.call (.propAccess (.ident "Schema") "parse") "await req.json()")⟩ [])
      .nil))

/-- Scenario 3 of the specification: the schema variable followed by the
`POST` handler that parses the body with it. -/
def schemaScenarioFile : Stmts := .cons schemaStmt (.cons schemaPostFn .nil)

/-- `function POST(){ const body = req.text(); }` — no recognized idiom. -/
def negativeFile : Stmts :=
  .cons (.functionDecl (some "POST")
    (some (.cons (.varStmt "const body = req.text();"
      ⟨.ident "body", none, some (.call (.propAccess (.ident "req") "text") "")⟩ [])
      .nil))) .nil

/-- `import "m";` alone — import indexing throws on it. -/
def sideEffectImportFile : Stmts := .cons (.importDecl "\"m\"" none) .nil

/-- A file where the name `Foo` is both imported and locally defined as an
interface, and the `POST` body reads `const body: Foo = await req.json();`. -/
def importShadowFile : Stmts :=
  .cons (.importDecl "\"@/types\"" (some ⟨none, some (.namedImports ["Foo"])⟩))
    (.cons (.interfaceDecl "Foo" "interface Foo \x7b x: string \x7d")
      (.cons (.functionDecl (some "POST")
        (some (.cons (.varStmt "const body: Foo = await req.json();"
          (annDecl "body" "Foo") []) .nil))) .nil))

/-- Two imports binding the same local name `A` from different modules. -/
def duplicateImportFile : Stmts :=
  .cons (.importDecl "\"m1\"" (some ⟨none, some (.namedImports ["A"])⟩))
    (.cons (.importDecl "\"m2\"" (some ⟨none, some (.namedImports ["A"])⟩)) .nil)

/-- The import map the code builds from `duplicateImportFile`. -/
def duplicateImportMap : ImportMap := [("A", "m2")]

/-!
Congruence of the traversals in the declarators after the first one of a
variable statement (for C10).
-/

theorem sbStmts_append_congr (ms : List BodyPatternMatcher) (l1 l2 : Stmts)
    (hl : ∀ st', sbStmts ms st' l1 = sbStmts ms st' l2) :
    ∀ (pre : Stmts) (st : Option String),
      sbStmts ms st (pre.append l1) = sbStmts ms st (pre.append l2)
  | .nil, st => by simpa [Stmts.append] using hl st
  | .cons s r, st => by
    simp only [Stmts.append, sbStmts]
    exact sbStmts_append_congr ms l1 l2 hl r (sbNode ms st s)

theorem fltdStmts_append_congr (n : String) (l1 l2 : Stmts)
    (hl : fltdStmts n l1 = fltdStmts n l2) :
    ∀ (pre : Stmts), fltdStmts n (pre.append l1) = fltdStmts n (pre.append l2)
  | .nil => by simpa [Stmts.append] using hl
  | .cons s r => by
    simp only [Stmts.append, fltdStmts]
    cases h : fltdNode n s with
    | some d => rfl
    | none => exact fltdStmts_append_congr n l1 l2 hl r

theorem flaStmts_append_congr (n : String) (l1 l2 : Stmts)
    (hl : flaStmts n l1 = flaStmts n l2) :
    ∀ (pre : Stmts), flaStmts n (pre.append l1) = flaStmts n (pre.append l2)
  | .nil => by simpa [Stmts.append] using hl
  | .cons s r => by
    simp only [Stmts.append, flaStmts]
    cases h : flaNode n s with
    | some d => rfl
    | none => exact flaStmts_append_congr n l1 l2 hl r

theorem fliStmts_append_congr (n : String) (l1 l2 : Stmts)
    (hl : fliStmts n l1 = fliStmts n l2) :
    ∀ (pre : Stmts), fliStmts n (pre.append l1) = fliStmts n (pre.append l2)
  | .nil => by simpa [Stmts.append] using hl
  | .cons s r => by
    simp only [Stmts.append, fliStmts]
    cases h : fliNode n s with
    | some d => rfl
    | none => exact fliStmts_append_congr n l1 l2 hl r

/-!
The claims.
-/

/-- C1 (refuting evaluation): in `searchFunctionBodyType` the first
recognized statement does NOT win.  On a `POST` body whose two statements
both carry the annotated idiom (types `A` then `B`), the traversal keeps
overwriting `bodyTypeName` and returns the LAST statement's name `B`, and
a later statement that a matcher recognizes but whose extraction is empty
(an inline object type) erases an earlier winner, returning absence.  The
visitor's `return` stops neither `ts.forEachChild` sibling iteration nor
the overwrite, contrary to its own `Stop searching once found` comment. -/
theorem c1_later_statements_overwrite_winner :
    searchFunctionBodyType defaultPatternMatchers postFnAB = some "B" ∧
    searchFunctionBodyType defaultPatternMatchers postFnAErase = none :=
  ⟨rfl, rfl⟩

/-- C2 (refuting evaluation): for a combined import clause
`import DefaultType, { NamedType1, NamedType2 } from "@/lib/types"` the
named-imports branch of `collectImportStatements` returns before the
default-name branch runs, so the resulting index binds only the
named imports and NOT the default name — although the repository's own test
`Mixed import (default + named)` asserts all three bindings. -/
theorem c2_combined_clause_drops_default :
    collectImportStatements combinedImport mapEmpty = .ok combinedImportMap ∧
    mapGet combinedImportMap "DefaultType" = none ∧
    mapGet combinedImportMap "NamedType1" = some "@/lib/types" ∧
    mapGet combinedImportMap "NamedType2" = some "@/lib/types" :=
  ⟨rfl, rfl, rfl, rfl⟩

/-- C3 (refuting evaluation): `findFunction` does NOT return the first
matching declaration and does NOT restrict itself to top level.  With two
top-level functions named `POST`, the visitor overwrites `foundFunction`
and the second one wins (its body, carrying type `B`, is the one
examined); and a `POST` declaration nested inside another function's body
is found as well. -/
theorem c3_findFunction_last_match_and_nested :
    findFunction duplicatePostFile "POST" = some postFnB ∧
    findFunctionBodyType duplicatePostFile "POST" defaultPatternMatchers = some "B" ∧
    findFunction nestedPostFile "POST" = some postFnA :=
  ⟨rfl, rfl, rfl⟩

/-- C4: import resolution has priority over local definitions in
`findBodyType`.  Whenever import indexing succeeds and a body type name
`n` was extracted, if `n` is in the import map the result is the imported
variant (no local definition is reported, whatever the file contains),
and only if `n` is absent from the map does the result follow the local
definition search. -/
theorem c4_import_priority (file : Stmts) (m : ImportMap) (n : String)
    (hImports : collectStmts mapEmpty file = .ok m)
    (hName : findFunctionBodyType file "POST" defaultPatternMatchers = some n) :
    (∀ p, mapGet m n = some p → findBodyType file = some ⟨n, some p, none⟩) ∧
    (mapGet m n = none →
      findBodyType file =
        (match findAnyLocalTypeDefinition file n with
         | some d => some ⟨n, none, some d⟩
         | none => none)) := by
  constructor
  · intro p hp
    simp [findBodyType, hImports, hName, hp]
  · intro hnone
    simp [findBodyType, hImports, hName, hnone]

/-- C4 witness: in a file where `Foo` is both imported from `@/types` and
locally defined as an interface, resolution returns the imported
variant. -/
theorem c4_import_priority_witness :
    findBodyType importShadowFile = some ⟨"Foo", some "@/types", none⟩ :=
  (c4_import_priority importShadowFile [("Foo", "@/types")] "Foo" rfl rfl).1
    "@/types" rfl

/-- C5: a side-effect-only import (no clause) signals `noClause` and a
pure namespace import signals `unsupportedClause`, both carrying the
quote-stripped module path, and each error's message contains that path;
named-imports clauses and default-import clauses never signal. -/
theorem c5_import_clause_errors :
    (∀ modText m, collectImportStatements (.importDecl modText none) m =
      .error (.noClause (stripQuotes modText))) ∧
    (∀ modText ns m,
      collectImportStatements
          (.importDecl modText (some ⟨none, some (.namespaceImport ns)⟩)) m =
        .error (.unsupportedClause (stripQuotes modText))) ∧
    (∀ path, ∃ pre post,
      (ImportClauseError.noClause path).message = pre ++ (path ++ post)) ∧
    (∀ path, ∃ pre post,
      (ImportClauseError.unsupportedClause path).message = pre ++ (path ++ post)) ∧
    (∀ modText dflt els m, ∃ m2,
      collectImportStatements
          (.importDecl modText (some ⟨dflt, some (.namedImports els)⟩)) m = .ok m2) ∧
    (∀ modText d m, ∃ m2,
      collectImportStatements
          (.importDecl modText (some ⟨some d, none⟩)) m = .ok m2) := by
  refine ⟨fun _ _ => rfl, fun _ _ _ => rfl, fun path => ⟨_, _, rfl⟩,
    fun path => ⟨_, _, rfl⟩, fun _ _ _ _ => ⟨_, rfl⟩, fun _ _ _ => ⟨_, rfl⟩⟩

/-- C6: `findBodyType` is total and converts engine-internal errors to
absence: an `ImportClauseError` raised during import indexing yields
`none`; the negative body `const body = req.text();` yields `none` rather
than an error; and on every input the function returns either absence or
a result. -/
theorem c6_no_escaping_exception :
    (∀ (file : Stmts) (e : ImportClauseError),
      collectStmts mapEmpty file = .error e → findBodyType file = none) ∧
    findBodyType negativeFile = none ∧
    (∀ file : Stmts, findBodyType file = none ∨
      ∃ r : ParsedTypeInfo, findBodyType file = some r) := by
  refine ⟨?_, rfl, ?_⟩
  · intro file e h
    simp [findBodyType, h]
  · intro file
    cases h : findBodyType file with
    | none => exact Or.inl rfl
    | some r => exact Or.inr ⟨r, rfl⟩

/-- C6 witness: a file whose only statement is `import "m";` makes import
indexing signal, and `findBodyType` converts that to absence. -/
theorem c6_no_escaping_exception_witness :
    findBodyType sideEffectImportFile = none :=
  c6_no_escaping_exception.1 sideEffectImportFile (.noClause "m") rfl

/-- C7: scenario 3 — for
`const Schema = z.object({ x: z.string() }); function POST(){ const body = Schema.parse(await req.json()); }`
the engine extracts the schema identifier `Schema` and resolves it to the
local variable statement's full source text. -/
theorem c7_schema_parse_local_definition :
    findBodyType schemaScenarioFile =
      some ⟨"Schema", none, some "const Schema = z.object(\x7b x: z.string() \x7d);"⟩ :=
  rfl

/-- C8: the annotated-assignment matcher and the type-assertion matcher
extract a type name exactly when the type node is a named-type reference
(absence for structural types or a missing annotation); the assertion
matcher accepts the parenthesized form by unwrapping the parenthesization
before checking the `.json()` suffix, and both matchers' `matches` test
the awaited expression's text for that suffix. -/
theorem c8_matcher_extraction_conditions :
    (∀ bn ty init?, awaitReqJsonMatcher.extractTypeName ⟨bn, some (.ref ty), init?⟩ = some ty) ∧
    (∀ bn tt init?, awaitReqJsonMatcher.extractTypeName ⟨bn, some (.otherType tt), init?⟩ = none) ∧
    (∀ bn init?, awaitReqJsonMatcher.extractTypeName ⟨bn, none, init?⟩ = none) ∧
    (∀ bn ty? e ty, typeAssertionMatcher.extractTypeName ⟨bn, ty?, some (.asE e (.ref ty))⟩ = some ty) ∧
    (∀ bn ty? e tt, typeAssertionMatcher.extractTypeName ⟨bn, ty?, some (.asE e (.otherType tt))⟩ = none) ∧
    (∀ bn ty? e t, typeAssertionMatcher.matchesDecl ⟨bn, ty?, some (.asE (.paren e) t)⟩ =
      typeAssertionMatcher.matchesDecl ⟨bn, ty?, some (.asE e t)⟩) ∧
    (∀ bn ty? e t, typeAssertionMatcher.matchesDecl ⟨bn, ty?, some (.asE (.awaitE e) t)⟩ =
      strEndsWith (Expr.getText e) ".json()") ∧
    (∀ bn ty? e, awaitReqJsonMatcher.matchesDecl ⟨bn, ty?, some (.awaitE e)⟩ =
      strEndsWith (Expr.getText e) ".json()") := by
  refine ⟨fun _ _ _ => rfl, fun _ _ _ => rfl, fun _ _ => rfl, fun _ _ _ _ => rfl,
    fun _ _ _ _ => rfl, fun _ _ _ _ => rfl, fun _ _ _ _ => rfl, fun _ _ _ => rfl⟩

/-- C9: when import indexing succeeds, every key of the resulting index
is bound by the clause of some import declaration of the file, and each
key maps to the module path of its most recently scanned binding (last
write wins). -/
theorem c9_import_index_invariant (l : Stmts) (m : ImportMap)
    (h : collectStmts mapEmpty l = .ok m) :
    (∀ k, (mapGet m k).isSome = true →
      ∃ s, s ∈ stmtsFlatten l ∧ ImportBindsName s k) ∧
    (∀ k, mapGet m k = lastAssoc (stmtsAllBindings l) k) := by
  have hg2 : ∀ k, mapGet m k = lastAssoc (stmtsAllBindings l) k := by
    intro k
    rw [collectStmts_get l mapEmpty m h k]
    simp [mapGet, mapEmpty, Option.or_none]
  constructor
  · intro k hk
    rw [hg2 k] at hk
    cases hv : lastAssoc (stmtsAllBindings l) k with
    | none => rw [hv] at hk; simp at hk
    | some v =>
      obtain ⟨u, hu, hpu⟩ := mem_stmtsAllBindings l (k, v) (lastAssoc_some_mem hv)
      exact ⟨u, hu, by simpa using stmtOwnBindings_sound hpu⟩
  · exact hg2

/-- C9 witness: two imports binding `A` (from `m1` then `m2`) produce an
index where `A` maps to the last write `m2`, and the key is bound by
an import-declaration node of the file. -/
theorem c9_import_index_invariant_witness :
    mapGet duplicateImportMap "A" = lastAssoc (stmtsAllBindings duplicateImportFile) "A" ∧
    mapGet duplicateImportMap "A" = some "m2" ∧
    (∃ s, s ∈ stmtsFlatten duplicateImportFile ∧ ImportBindsName s "A") := by
  have h := c9_import_index_invariant duplicateImportFile duplicateImportMap rfl
  exact ⟨h.2 "A", rfl, h.1 "A" rfl⟩

/-- C10: only the first declarator of a variable statement is ever
examined — the body-type search inside a located function, the combined
local-definition search, and the variable-declaration extractor's
`canHandle` are all unchanged when the declarators after the first are
dropped, so an idiom or a binding in a second or later declarator is
never seen. -/
theorem c10_only_first_declarator (ms : List BodyPatternMatcher)
    (fname? : Option String) (pre post : Stmts) (stext : String)
    (d0 d1 : VarDecl) (drest : List VarDecl) (n : String) :
    searchFunctionBodyType ms
        (.functionDecl fname? (some (pre.append (.cons (.varStmt stext d0 (d1 :: drest)) post)))) =
      searchFunctionBodyType ms
        (.functionDecl fname? (some (pre.append (.cons (.varStmt stext d0 []) post)))) ∧
    findAnyLocalTypeDefinition (pre.append (.cons (.varStmt stext d0 (d1 :: drest)) post)) n =
      findAnyLocalTypeDefinition (pre.append (.cons (.varStmt stext d0 []) post)) n ∧
    variableDeclarationExtractor.canHandle (.varStmt stext d0 (d1 :: drest)) n =
      variableDeclarationExtractor.canHandle (.varStmt stext d0 []) n := by
  refine ⟨?_, ?_, rfl⟩
  · show sbStmts ms none _ = sbStmts ms none _
    exact sbStmts_append_congr ms (.cons (.varStmt stext d0 (d1 :: drest)) post)
      (.cons (.varStmt stext d0 []) post) (fun st' => rfl) pre none
  · have h1 : findLocalTypeDefinition (pre.append (.cons (.varStmt stext d0 (d1 :: drest)) post)) n =
        findLocalTypeDefinition (pre.append (.cons (.varStmt stext d0 []) post)) n :=
      fltdStmts_append_congr n (.cons (.varStmt stext d0 (d1 :: drest)) post)
        (.cons (.varStmt stext d0 []) post) rfl pre
    have h2 : findLocalTypeAlias (pre.append (.cons (.varStmt stext d0 (d1 :: drest)) post)) n =
        findLocalTypeAlias (pre.append (.cons (.varStmt stext d0 []) post)) n :=
      flaStmts_append_congr n (.cons (.varStmt stext d0 (d1 :: drest)) post)
        (.cons (.varStmt stext d0 []) post) rfl pre
    have h3 : findLocalInterface (pre.append (.cons (.varStmt stext d0 (d1 :: drest)) post)) n =
        findLocalInterface (pre.append (.cons (.varStmt stext d0 []) post)) n :=
      fliStmts_append_congr n (.cons (.varStmt stext d0 (d1 :: drest)) post)
        (.cons (.varStmt stext d0 []) post) rfl pre
    simp only [findAnyLocalTypeDefinition, h1, h2, h3]

end TypeView
